import Mathlib

/-!
Verification of the caching subsystem of the blog service.

The development embeds, in Lean, the cache store client
(`src/utils/redis.js`: circuit breaker, `executeWithFallback`, and the
`cache.get/set/del/clearPattern` helpers) and the Express caching
middleware (`cacheResponse`, `invalidateCache`, `blogCache` from the
middleware module).  JSON values are modelled by an inductive type with
integer numerals; the platform `JSON.stringify` / `JSON.parse` pair is
modelled by an executable serializer and parser over that type, for
which a round-trip theorem is proved.  Remote-store interaction is
modelled by an explicit association list of raw serialized strings plus
a boolean signalling that the underlying store call throws.
-/

namespace BlogCache

/-- JSON-compatible payloads, as handled by the cache layer.  Numbers are
modelled as integers (the cached blog payloads are objects, arrays,
strings, booleans and integral ids). -/
inductive Json where
  | null : Json
  | bool (b : Bool) : Json
  | num (n : Int) : Json
  | str (s : String) : Json
  | arr (elems : List Json) : Json
  | obj (fields : List (String × Json)) : Json
deriving Repr

/-- JavaScript truthiness of a JSON value: `null`, `false`, `0` and the
empty string are falsy; arrays and objects are always truthy. -/
def jsTruthy : Json → Bool
  | .null => false
  | .bool b => b
  | .num n => decide (n ≠ 0)
  | .str s => decide (s ≠ "")
  | .arr _ => true
  | .obj _ => true

/-- Decimal digit character for a value below ten. -/
def digitChar (d : Nat) : Char := Char.ofNat (48 + d)

/-- Decimal digits of a natural number, most significant first (fuel-based
recursion over division by ten). -/
def natCharsAux : Nat → Nat → List Char
  | 0, _ => []
  | fuel + 1, n =>
    if n < 10 then [digitChar n]
    else natCharsAux fuel (n / 10) ++ [digitChar (n % 10)]

/-- Decimal representation of a natural number. -/
def natChars (n : Nat) : List Char := natCharsAux (n + 1) n

/-- Decimal representation of an integer, with a leading minus sign for
negative values, as `JSON.stringify` prints integral numbers. -/
def intChars : Int → List Char
  | .ofNat n => natChars n
  | .negSucc m => '-' :: natChars (m + 1)

/-- String-body escaping performed by the serializer: a quote or a
backslash is preceded by a backslash, every other character is emitted
as itself. -/
def escChar (c : Char) : List Char :=
  if c = '"' ∨ c = '\\' then ['\\', c] else [c]

/-- Escaped body of a serialized JSON string. -/
def escBody (cs : List Char) : List Char := (cs.map escChar).flatten

/-- Serialized form of a JSON string, quotes included. -/
def strChars (s : String) : List Char := '"' :: escBody s.data ++ ['"']

/-- Serialized form of the `null` literal. -/
def nullChars : List Char := "null".data

/-- Serialized form of the `true` literal. -/
def trueChars : List Char := "true".data

/-- Serialized form of the `false` literal. -/
def falseChars : List Char := "false".data

mutual
/-- Character stream produced by the model of `JSON.stringify`. -/
def jsonChars : Json → List Char
  | .null => nullChars
  | .bool true => trueChars
  | .bool false => falseChars
  | .num n => intChars n
  | .str s => strChars s
  | .arr es => '[' :: arrChars es ++ [']']
  | .obj fs => '\x7b' :: objChars fs ++ ['\x7d']

/-- Comma-separated serialized array elements. -/
def arrChars : List Json → List Char
  | [] => []
  | [e] => jsonChars e
  | e :: e2 :: es => jsonChars e ++ ',' :: arrChars (e2 :: es)

/-- Comma-separated serialized object members. -/
def objChars : List (String × Json) → List Char
  | [] => []
  | [f] => strChars f.1 ++ ':' :: jsonChars f.2
  | f :: f2 :: fs => strChars f.1 ++ ':' :: jsonChars f.2 ++ ',' :: objChars (f2 :: fs)
end

/-- Model of `JSON.stringify` restricted to the payload type above. -/
def stringify (j : Json) : String := String.mk (jsonChars j)

/-- Greedy decimal-digit scanner: consumes leading digits, accumulating
their value onto `acc`, and returns the value with the unconsumed
suffix. -/
def scanDigits : List Char → Nat → Nat × List Char
  | [], acc => (acc, [])
  | c :: cs, acc =>
    if c.isDigit then scanDigits cs (acc * 10 + (c.toNat - 48)) else (acc, c :: cs)

/-- Number parser: an optional minus sign followed by at least one
digit. -/
def parseNum : List Char → Option (Int × List Char)
  | [] => none
  | c :: cs =>
    if c = '-' then
      match cs with
      | [] => none
      | d :: cs' =>
        if d.isDigit then
          let p := scanDigits (d :: cs') 0
          some (-(p.1 : Int), p.2)
        else none
    else if c.isDigit then
      let p := scanDigits (c :: cs) 0
      some ((p.1 : Int), p.2)
    else none

/-- String-body parser: consumes characters up to an unescaped closing
quote, unescaping backslash sequences, with the scanned prefix
accumulated in reverse in `acc`. -/
def scanStr : List Char → List Char → Option (List Char × List Char)
  | [], _ => none
  | c :: cs, acc =>
    if c = '"' then some (acc.reverse, cs)
    else if c = '\\' then
      match cs with
      | [] => none
      | d :: cs' => scanStr cs' (d :: acc)
    else scanStr cs (c :: acc)

mutual
/-- Value parser of the model of `JSON.parse` (fuel-bounded recursive
descent). -/
def parseVal : Nat → List Char → Option (Json × List Char)
  | 0, _ => none
  | _ + 1, [] => none
  | fuel + 1, c :: cs =>
    if c = 'n' then
      match cs with
      | 'u' :: 'l' :: 'l' :: rest => some (.null, rest)
      | _ => none
    else if c = 't' then
      match cs with
      | 'r' :: 'u' :: 'e' :: rest => some (.bool true, rest)
      | _ => none
    else if c = 'f' then
      match cs with
      | 'a' :: 'l' :: 's' :: 'e' :: rest => some (.bool false, rest)
      | _ => none
    else if c = '"' then
      match scanStr cs [] with
      | some (body, rest) => some (.str (String.mk body), rest)
      | none => none
    else if c = '[' then
      match cs with
      | [] => none
      | d :: cs' =>
        if d = ']' then some (.arr [], cs')
        else
          match parseArrItems fuel (d :: cs') with
          | some (es, rest) => some (.arr es, rest)
          | none => none
    else if c = '\x7b' then
      match cs with
      | [] => none
      | d :: cs' =>
        if d = '\x7d' then some (.obj [], cs')
        else
          match parseObjItems fuel (d :: cs') with
          | some (fs, rest) => some (.obj fs, rest)
          | none => none
    else
      match parseNum (c :: cs) with
      | some (n, rest) => some (.num n, rest)
      | none => none

/-- Non-empty comma-separated array-element list, up to and including the
closing bracket. -/
def parseArrItems : Nat → List Char → Option (List Json × List Char)
  | 0, _ => none
  | fuel + 1, cs =>
    match parseVal fuel cs with
    | none => none
    | some (j, rest) =>
      match rest with
      | ',' :: rest' =>
        match parseArrItems fuel rest' with
        | some (es, rest2) => some (j :: es, rest2)
        | none => none
      | ']' :: rest' => some ([j], rest')
      | _ => none

/-- Non-empty comma-separated object-member list, up to and including the
closing brace. -/
def parseObjItems : Nat → List Char → Option (List (String × Json) × List Char)
  | 0, _ => none
  | fuel + 1, cs =>
    match cs with
    | '"' :: cs' =>
      match scanStr cs' [] with
      | none => none
      | some (kcs, rest) =>
        match rest with
        | ':' :: rest' =>
          match parseVal fuel rest' with
          | none => none
          | some (j, rest2) =>
            match rest2 with
            | ',' :: rest3 =>
              match parseObjItems fuel rest3 with
              | some (fs, rest4) => some ((String.mk kcs, j) :: fs, rest4)
              | none => none
            | '\x7d' :: rest3 => some ([(String.mk kcs, j)], rest3)
            | _ => none
        | _ => none
    | _ => none
end

/-- Model of `JSON.parse`: parse a full value with fuel one beyond the
input length; any parse failure models the platform parser throwing. -/
def parseJson (s : String) : Option Json :=
  match parseVal (s.length + 1) s.data with
  | some (j, []) => some j
  | _ => none

/-! ## Cache store client (`src/utils/redis.js`)

The mutable fields of the `RedisClient` singleton that the cache
operations read or write.  Time is passed explicitly: every call that
reads `Date.now()` in the source takes the current timestamp `now` as an
argument.  `circuitBreakerLastFailure` starts as `null` and JavaScript
coerces `null` to `0` in the subtraction, hence the `Option` with
`getD 0`. -/

structure RedisState where
  isConnected : Bool
  hasClient : Bool
  circuitBreakerFailures : Nat
  circuitBreakerThreshold : Nat
  circuitBreakerTimeout : Nat
  circuitBreakerLastFailure : Option Nat
  isCircuitBreakerOpen : Bool
deriving Repr, DecidableEq

/-- Field values assigned in the `RedisClient` constructor (threshold 5,
timeout 30000 ms, no connection yet). -/
def initialRedisState : RedisState :=
  { isConnected := false
    hasClient := false
    circuitBreakerFailures := 0
    circuitBreakerThreshold := 5
    circuitBreakerTimeout := 30000
    circuitBreakerLastFailure := none
    isCircuitBreakerOpen := false }

/-- Embedding of `isCircuitBreakerTripped()`: returns whether the breaker
short-circuits the operation, and the (possibly reset) state — when the
breaker is open and the cooldown has elapsed, the check itself closes the
breaker and zeroes the failure count. -/
def isCircuitBreakerTripped (s : RedisState) (now : Nat) : Bool × RedisState :=
  if !s.isCircuitBreakerOpen then (false, s)
  else if now - (s.circuitBreakerLastFailure.getD 0) > s.circuitBreakerTimeout then
    (false, { s with isCircuitBreakerOpen := false, circuitBreakerFailures := 0 })
  else (true, s)

/-- Embedding of `recordFailure()`: increments the failure count, stamps
the failure time, and opens the breaker once the count reaches the
threshold. -/
def recordFailure (s : RedisState) (now : Nat) : RedisState :=
  let f := s.circuitBreakerFailures + 1
  { s with
    circuitBreakerFailures := f
    circuitBreakerLastFailure := some now
    isCircuitBreakerOpen :=
      if f ≥ s.circuitBreakerThreshold then true else s.isCircuitBreakerOpen }

/-- Embedding of `recordSuccess()`: resets the failure count and closes
the breaker after any successful operation following failures. -/
def recordSuccess (s : RedisState) : RedisState :=
  if s.circuitBreakerFailures > 0 then
    { s with circuitBreakerFailures := 0, isCircuitBreakerOpen := false }
  else s

/-- Result of one `executeWithFallback` round: the value handed back to
the caller, the client state afterwards, and whether the store operation
closure was actually invoked. -/
structure OpOutcome (α : Type) where
  result : α
  state : RedisState
  opInvoked : Bool
deriving Repr

/-- Embedding of `executeWithFallback(operation, fallback)`.  The
operation is a value of `Except Unit α`: `.error` models the awaited
store call rejecting/throwing.  The wrapper never throws itself: its result
type carries no error case, and every failure path yields `fallback`. -/
def executeWithFallback {α : Type} (s : RedisState) (now : Nat)
    (op : Except Unit α) (fallback : α) : OpOutcome α :=
  match isCircuitBreakerTripped s now with
  | (true, s2) => ⟨fallback, s2, false⟩
  | (false, s2) =>
    if !s2.isConnected || !s2.hasClient then ⟨fallback, s2, false⟩
    else
      match op with
      | .ok v => ⟨v, recordSuccess s2, true⟩
      | .error _ => ⟨fallback, recordFailure s2 now, true⟩

/-- The remote store contents: association list from keys to the raw
serialized strings Redis holds (`SETEX` overwrites, so insertion removes
any previous binding). -/
abbrev Store := List (String × String)

/-- Raw `GET key` answer of the remote store. -/
def storeLookup (st : Store) (k : String) : Option String := st.lookup k

/-- `SETEX` binding update: newest binding shadows and replaces older
ones. -/
def storeInsert (st : Store) (k v : String) : Store :=
  (k, v) :: st.filter (fun p => p.1 ≠ k)

/-- Simple glob matching for `KEYS pattern`: a `*` matches any character
sequence, every other character matches itself. -/
def globMatch : List Char → List Char → Bool
  | [], [] => true
  | [], _ :: _ => false
  | '*' :: ps, s =>
    globMatch ps s ||
      (match s with
       | [] => false
       | _ :: s' => globMatch ('*' :: ps) s')
  | p :: ps, c :: s => p == c && globMatch ps s
  | _ :: _, [] => false
termination_by p s => p.length + s.length

/-- Whether a stored key matches an invalidation pattern. -/
def keyMatches (pattern k : String) : Bool := globMatch pattern.data k.data

/-- Embedding of `cache.get(key)`: inside `executeWithFallback`, re-check
the client, `GET` the raw string, treat a falsy (null or empty) string as
a miss, otherwise `JSON.parse` it — a parse failure throws inside the
operation and is caught by `executeWithFallback`.  `netFail` models the
underlying store call itself rejecting. -/
def cacheGet (s : RedisState) (st : Store) (netFail : Bool) (now : Nat)
    (k : String) : OpOutcome (Option Json) :=
  executeWithFallback s now
    (if netFail then .error ()
     else if !s.hasClient || !s.isConnected then .ok none
     else
       match storeLookup st k with
       | none => .ok none
       | some raw =>
         if raw = "" then .ok none
         else
           match parseJson raw with
           | some j => .ok (some j)
           | none => .error ())
    none

/-- Embedding of `cache.set(key, value, ttl)`: stores the serialized
value and returns `true`; returns `false` without writing when the client
is unavailable.  The stored TTL is enforced by the remote store, not by
the client, so the model keeps the binding until overwritten or
deleted. -/
def cacheSet (s : RedisState) (st : Store) (netFail : Bool) (now : Nat)
    (k : String) (v : Json) (ttl : Nat) : OpOutcome (Bool × Store) :=
  executeWithFallback s now
    (if netFail then .error ()
     else if !s.hasClient || !s.isConnected then .ok (false, st)
     else .ok (true, storeInsert st k (stringify v)))
    (false, st)

/-- Embedding of `cache.del(key)`. -/
def cacheDel (s : RedisState) (st : Store) (netFail : Bool) (now : Nat)
    (k : String) : OpOutcome (Bool × Store) :=
  executeWithFallback s now
    (if netFail then .error ()
     else if !s.hasClient || !s.isConnected then .ok (false, st)
     else .ok (true, st.filter (fun p => p.1 ≠ k)))
    (false, st)

/-- Embedding of `cache.clearPattern(pattern)`: enumerates matching keys,
deletes them when there are any, and returns the matched count; returns 0
on every unavailability or failure path. -/
def cacheClearPattern (s : RedisState) (st : Store) (netFail : Bool) (now : Nat)
    (pattern : String) : OpOutcome (Nat × Store) :=
  executeWithFallback s now
    (if netFail then .error ()
     else if !s.hasClient || !s.isConnected then .ok (0, st)
     else
       let ks := (st.map Prod.fst).filter (fun k => keyMatches pattern k)
       .ok (ks.length,
        if ks.length > 0 then st.filter (fun p => !keyMatches pattern p.1) else st))
    (0, st)

/-! ## Read-through cache middleware (`cacheResponse` in the middleware module) -/

/-- The request fields the caching middleware reads. -/
structure Request where
  method : String
  originalUrl : String

/-- The response the wrapped handler would produce when invoked: the
status code it sets and the body it passes to `res.json`. -/
structure HandlerResp where
  status : Nat
  body : Json

/-- Effective per-endpoint configuration after destructuring the
`options` argument.  The key generator may throw (modelled by `Except`),
which is what drives the middleware's catch branch. -/
structure CacheConfig where
  keyGenerator : Request → Except Unit String
  ttl : Nat
  skipCache : Bool

/-- The default key generator from the options destructuring:
`api:<method>:<originalUrl>`. -/
def defaultKeyGenerator (req : Request) : Except Unit String :=
  .ok ("api:" ++ req.method ++ ":" ++ req.originalUrl)

/-- The JavaScript value passed as `cacheResponse`'s `options` parameter:
either an object with the optional documented fields, or (as the
`blogCache` call sites do) a plain number. -/
inductive OptionsArg where
  | objArg (keyGenerator : Option (Request → Except Unit String))
      (ttl : Option Nat) (skipCache : Option Bool)
  | numArg (n : Nat)

/-- Embedding of the destructuring
`const \x7b keyGenerator = ..., ttl = 300, skipCache = false \x7d = options`.
Property access on a JavaScript number yields `undefined`, so a numeric
argument produces exactly the default configuration. -/
def resolveOptions : OptionsArg → CacheConfig
  | .objArg kg t sk => ⟨kg.getD defaultKeyGenerator, t.getD 300, sk.getD false⟩
  | .numArg _ => ⟨defaultKeyGenerator, 300, false⟩

/-- The `Cache-Control` header value written alongside the cache
status. -/
def cacheControlValue (ttl : Nat) : String := "public, max-age=" ++ toString ttl

/-- JavaScript truthiness of `cachedData` (the value returned by
`cache.get`): `null`/absent is falsy, otherwise the payload's own
truthiness applies. -/
def optTruthy : Option Json → Bool
  | none => false
  | some j => jsTruthy j

/-- Observable outcome of running the middleware (and, when it is
invoked, the wrapped handler) on one request: whether the handler ran,
the response headers written by the middleware, the response sent, and
whether/what the fire-and-forget `cache.set` left in the store. -/
structure MwResult where
  handlerInvoked : Bool
  headers : List (String × String)
  respStatus : Nat
  respBody : Json
  cacheSetInvoked : Bool
  finalStore : Store
  finalState : RedisState

/-- The miss path of `cacheResponse`: the handler runs; its overridden
`res.json` caches the body (fire-and-forget `cache.set`) and writes the
MISS headers only for a 2xx status. -/
def missBranch (cacheKey : String) (ttl : Nat) (s : RedisState) (st : Store)
    (setNetFail : Bool) (now : Nat) (h : HandlerResp) : MwResult :=
  if 200 ≤ h.status ∧ h.status < 300 then
    let w := cacheSet s st setNetFail now cacheKey h.body ttl
    { handlerInvoked := true
      headers := [("X-Cache", "MISS"), ("X-Cache-Key", cacheKey),
        ("Cache-Control", cacheControlValue ttl)]
      respStatus := h.status
      respBody := h.body
      cacheSetInvoked := true
      finalStore := w.result.2
      finalState := w.state }
  else
    { handlerInvoked := true
      headers := []
      respStatus := h.status
      respBody := h.body
      cacheSetInvoked := false
      finalStore := st
      finalState := s }

/-- Embedding of the `cacheResponse(options)` middleware body for one
request.  `getNetFail`/`setNetFail` model the store call outcomes seen by
the cache lookup and the fire-and-forget write. -/
def cacheResponseMw (cfg : CacheConfig) (req : Request) (s : RedisState)
    (st : Store) (getNetFail setNetFail : Bool) (now : Nat)
    (h : HandlerResp) : MwResult :=
  if req.method ≠ "GET" ∨ cfg.skipCache then
    { handlerInvoked := true, headers := [], respStatus := h.status, respBody := h.body
      cacheSetInvoked := false, finalStore := st, finalState := s }
  else
    match cfg.keyGenerator req with
    | .error _ =>
      { handlerInvoked := true, headers := [("X-Cache", "ERROR")]
        respStatus := h.status, respBody := h.body
        cacheSetInvoked := false, finalStore := st, finalState := s }
    | .ok cacheKey =>
      let g := cacheGet s st getNetFail now cacheKey
      match g.result with
      | some j =>
        if jsTruthy j then
          { handlerInvoked := false
            headers := [("X-Cache", "HIT"), ("X-Cache-Key", cacheKey),
              ("Cache-Control", cacheControlValue cfg.ttl)]
            respStatus := 200
            respBody := j
            cacheSetInvoked := false
            finalStore := st
            finalState := g.state }
        else missBranch cacheKey cfg.ttl g.state st setNetFail now h
      | none => missBranch cacheKey cfg.ttl g.state st setNetFail now h

/-! ## Invalidation middleware (`invalidateCache` in the middleware module) -/

/-- The `patterns` argument: a single pattern string, a fixed list, or a
function of the request (the source also accepts a function returning a
single pattern, which it wraps into a one-element array — covered by a
function returning that list). -/
inductive InvalidationPatterns where
  | strPat (p : String)
  | listPat (ps : List String)
  | fnPat (f : Request → List String)

/-- Resolution of the configured patterns against the completed
request. -/
def resolvePatterns : InvalidationPatterns → Request → List String
  | .strPat p, _ => [p]
  | .listPat ps, _ => ps
  | .fnPat f, req => f req

/-- Sequentially clear every resolved pattern (the per-pattern failures
are caught and logged, never rethrown). -/
def clearPatterns (netFail : Bool) (now : Nat) :
    List String → RedisState → Store → RedisState × Store
  | [], s, st => (s, st)
  | p :: ps, s, st =>
    let r := cacheClearPattern s st netFail now p
    clearPatterns netFail now ps r.state r.result.2

/-- Observable outcome of the invalidation middleware on one finalized
response. -/
structure InvResult where
  invalidationPerformed : Bool
  finalStore : Store
  finalState : RedisState

/-- Embedding of `invalidateCache(patterns)`: the wrapped response
methods check the status code at finalization time and schedule
`performInvalidation` only for 2xx responses. -/
def invalidateCacheMw (pats : InvalidationPatterns) (req : Request)
    (finalStatus : Nat) (s : RedisState) (st : Store) (netFail : Bool)
    (now : Nat) : InvResult :=
  if 200 ≤ finalStatus ∧ finalStatus < 300 then
    let r := clearPatterns netFail now (resolvePatterns pats req) s st
    { invalidationPerformed := true, finalStore := r.2, finalState := r.1 }
  else
    { invalidationPerformed := false, finalStore := st, finalState := s }

/-! ## Pre-configured blog cache middleware (`blogCache`)

The source calls `cacheResponse(300, 'blogs')` and friends, passing a
number (and an ignored extra string argument) where `cacheResponse`
destructures an options object. -/

/-- `blogCache.list = cacheResponse(300, 'blogs')`. -/
def blogCacheList : CacheConfig := resolveOptions (.numArg 300)

/-- `blogCache.single = cacheResponse(900, 'blog')`. -/
def blogCacheSingle : CacheConfig := resolveOptions (.numArg 900)

/-- `blogCache.userBlogs = cacheResponse(600, 'user-blogs')`. -/
def blogCacheUserBlogs : CacheConfig := resolveOptions (.numArg 600)

/-- `blogCache.popular = cacheResponse(1800, 'popular-blogs')`. -/
def blogCachePopular : CacheConfig := resolveOptions (.numArg 1800)

/-- Iterated `recordFailure`, all stamped at the same time (the stamp
value does not influence the opening logic). -/
def recordFailureN (s : RedisState) (now : Nat) : Nat → RedisState
  | 0 => s
  | n + 1 => recordFailureN (recordFailure s now) now n

/-- C3 counterexample: a breaker that opened at time 1000 (failure count
5, threshold 5, cooldown 30000 ms) is probed at time 40000 — the
cooldown has elapsed.  The probe is allowed through and fails, yet the
breaker does NOT reopen: the tripped-check already reset the failure
count to 0, so the single failure only brings it back to 1 and
`isCircuitBreakerOpen` stays `false`, contrary to the claim that a
failed half-open probe "immediately reopens" the breaker. -/
def c3OpenState : RedisState :=
  { isConnected := true
    hasClient := true
    circuitBreakerFailures := 5
    circuitBreakerThreshold := 5
    circuitBreakerTimeout := 30000
    circuitBreakerLastFailure := some 1000
    isCircuitBreakerOpen := true }


/-- A connected client with a closed breaker. -/
def connectedState : RedisState :=
  { initialRedisState with isConnected := true, hasClient := true }

/-- A representative nested JSON payload: an object containing an array
of objects. -/
def nestedPayload : Json :=
  .obj [("posts", .arr [.obj [("id", .num 1), ("title", .str "a\"b\\c")],
                        .obj [("id", .num (-23)), ("likes", .num 0)]]),
        ("total", .num 2), ("cached", .bool true), ("next", .null)]

/-- A read request to the blog list endpoint. -/
def demoReq : Request := { method := "GET", originalUrl := "/api/blogs" }

/-- The default cache key computed for `demoReq`. -/
def demoKey : String := "api:GET:/api/blogs"

/-- `cacheResponse()` with an empty options object: all defaults. -/
def defaultConfig : CacheConfig := resolveOptions (.objArg none none none)

/-- Suffixes behind a serialized value never start with a decimal digit,
so the greedy number scanner stops at the right place. -/
def noDigitHead : List Char → Prop
  | [] => True
  | c :: _ => c.isDigit = false

lemma digitChar_isDigit {d : Nat} (h : d < 10) : (digitChar d).isDigit = true := by
  interval_cases d <;> decide

lemma digitChar_toNat {d : Nat} (h : d < 10) : (digitChar d).toNat = 48 + d := by
  interval_cases d <;> decide

lemma natCharsAux_digits : ∀ fuel n c, c ∈ natCharsAux fuel n → c.isDigit = true := by
  intro fuel
  induction fuel with
  | zero => intro n c hc; simp [natCharsAux] at hc
  | succ fuel ih =>
    intro n c hc
    by_cases h : n < 10
    · simp only [natCharsAux, if_pos h, List.mem_singleton] at hc
      subst hc
      exact digitChar_isDigit h
    · simp only [natCharsAux, if_neg h, List.mem_append, List.mem_singleton] at hc
      rcases hc with hc | hc
      · exact ih _ _ hc
      · subst hc
        exact digitChar_isDigit (Nat.mod_lt _ (by norm_num))

lemma natCharsAux_ne_nil (fuel n : Nat) (h : fuel ≠ 0) : natCharsAux fuel n ≠ [] := by
  cases fuel with
  | zero => exact absurd rfl h
  | succ fuel =>
    by_cases h10 : n < 10 <;> simp [natCharsAux, h10]

lemma natChars_ne_nil (n : Nat) : natChars n ≠ [] :=
  natCharsAux_ne_nil (n + 1) n (by omega)

lemma natChars_digits (n : Nat) (c : Char) (hc : c ∈ natChars n) : c.isDigit = true :=
  natCharsAux_digits (n + 1) n c hc

lemma foldl_natCharsAux : ∀ fuel n acc, n < fuel →
    (natCharsAux fuel n).foldl (fun a c => a * 10 + (c.toNat - 48)) acc
      = acc * 10 ^ (natCharsAux fuel n).length + n := by
  intro fuel
  induction fuel with
  | zero => intro n acc h; exact absurd h (Nat.not_lt_zero n)
  | succ fuel ih =>
    intro n acc h
    by_cases h10 : n < 10
    · simp only [natCharsAux, if_pos h10, List.foldl_cons, List.foldl_nil,
        List.length_singleton, pow_one]
      rw [digitChar_toNat h10]
      omega
    · have hn : 0 < n := by omega
      have hdiv : n / 10 < fuel := by
        have h1 : n / 10 < n := Nat.div_lt_self hn (by norm_num)
        omega
      simp only [natCharsAux, if_neg h10, List.foldl_append, List.foldl_cons,
        List.foldl_nil, List.length_append, List.length_singleton]
      rw [ih (n / 10) acc hdiv, digitChar_toNat (Nat.mod_lt _ (by norm_num))]
      have hdm : 10 * (n / 10) + n % 10 = n := Nat.div_add_mod n 10
      have hpow : 10 ^ ((natCharsAux fuel (n / 10)).length + 1)
          = 10 ^ (natCharsAux fuel (n / 10)).length * 10 := pow_succ 10 _
      rw [hpow]
      ring_nf
      omega

lemma natChars_foldl (n : Nat) :
    (natChars n).foldl (fun a c => a * 10 + (c.toNat - 48)) 0 = n := by
  have h := foldl_natCharsAux (n + 1) n 0 (by omega)
  simpa [natChars] using h

lemma scanDigits_append : ∀ ds rest acc, (∀ c ∈ ds, c.isDigit = true) → noDigitHead rest →
    scanDigits (ds ++ rest) acc
      = (ds.foldl (fun a c => a * 10 + (c.toNat - 48)) acc, rest) := by
  intro ds
  induction ds with
  | nil =>
    intro rest acc _ hr
    cases rest with
    | nil => simp [scanDigits]
    | cons c cs =>
      simp only [noDigitHead] at hr
      simp [scanDigits, hr]
  | cons d ds ih =>
    intro rest acc hd hr
    have hdig : d.isDigit = true := hd d (by simp)
    simp only [List.cons_append, scanDigits, if_pos hdig, List.foldl_cons]
    exact ih rest _ (fun c hc => hd c (by simp [hc])) hr

lemma scanDigits_natChars (n : Nat) (rest : List Char) (hr : noDigitHead rest) :
    scanDigits (natChars n ++ rest) 0 = (n, rest) := by
  rw [scanDigits_append (natChars n) rest 0 (natChars_digits n) hr, natChars_foldl]

lemma isDigit_ne {c d : Char} (h : c.isDigit = true) (hd : d.isDigit = false) : c ≠ d := by
  intro he
  subst he
  rw [h] at hd
  exact absurd hd (by simp)

lemma parseNum_natChars (n : Nat) (rest : List Char) (hr : noDigitHead rest) :
    parseNum (natChars n ++ rest) = some ((n : Int), rest) := by
  obtain ⟨c, cs, hcs⟩ := List.exists_cons_of_ne_nil (natChars_ne_nil n)
  have hdig : c.isDigit = true := natChars_digits n c (by rw [hcs]; simp)
  have hnm : c ≠ '-' := isDigit_ne hdig (by decide)
  rw [hcs]
  simp only [List.cons_append, parseNum, if_neg hnm, if_pos hdig]
  have : c :: (cs ++ rest) = natChars n ++ rest := by rw [hcs]; simp
  rw [this, scanDigits_natChars n rest hr]

lemma parseNum_negChars (m : Nat) (rest : List Char) (hr : noDigitHead rest) :
    parseNum (('-' :: natChars (m + 1)) ++ rest) = some (-((m + 1 : Nat) : Int), rest) := by
  obtain ⟨c, cs, hcs⟩ := List.exists_cons_of_ne_nil (natChars_ne_nil (m + 1))
  have hdig : c.isDigit = true := natChars_digits (m + 1) c (by rw [hcs]; simp)
  rw [hcs]
  simp only [List.cons_append, parseNum, if_pos rfl, if_pos hdig]
  have : c :: (cs ++ rest) = natChars (m + 1) ++ rest := by rw [hcs]; simp
  rw [this, scanDigits_natChars (m + 1) rest hr]
  simp

lemma escBody_cons (c : Char) (cs : List Char) :
    escBody (c :: cs) = escChar c ++ escBody cs := by
  simp [escBody]

lemma scanStr_quote (cs acc : List Char) : scanStr ('"' :: cs) acc = some (acc.reverse, cs) := by
  rw [scanStr.eq_def]
  simp

lemma scanStr_cons_esc (c : Char) (cs acc : List Char) :
    scanStr ('\\' :: c :: cs) acc = scanStr cs (c :: acc) := by
  rw [scanStr.eq_def]
  simp

lemma scanStr_cons_plain (c : Char) (h1 : c ≠ '"') (h2 : c ≠ '\\') (cs acc : List Char) :
    scanStr (c :: cs) acc = scanStr cs (c :: acc) := by
  rw [scanStr.eq_def]
  simp [h1, h2]

lemma scanStr_esc : ∀ cs acc rest,
    scanStr (escBody cs ++ '"' :: rest) acc = some (acc.reverse ++ cs, rest) := by
  intro cs
  induction cs with
  | nil =>
    intro acc rest
    simp only [escBody, List.map_nil, List.flatten_nil, List.nil_append, List.append_nil]
    exact scanStr_quote rest acc
  | cons c cs ih =>
    intro acc rest
    rw [escBody_cons]
    by_cases h : c = '"' ∨ c = '\\'
    · have hesc : escChar c = ['\\', c] := by rw [escChar, if_pos h]
      rw [hesc, List.append_assoc]
      simp only [List.cons_append, List.nil_append]
      rw [scanStr_cons_esc, ih (c :: acc) rest]
      simp
    · have h1 : c ≠ '"' := fun e => h (Or.inl e)
      have h2 : c ≠ '\\' := fun e => h (Or.inr e)
      have hesc : escChar c = [c] := by rw [escChar, if_neg h]
      rw [hesc, List.append_assoc]
      simp only [List.cons_append, List.nil_append]
      rw [scanStr_cons_plain c h1 h2, ih (c :: acc) rest]
      simp

lemma strChars_length (s : String) :
    (strChars s).length = (escBody s.data).length + 2 := by
  simp [strChars]

lemma jsonChars_head_ne (j : Json) : ∃ c cs, jsonChars j = c :: cs ∧ c ≠ ']' := by
  cases j with
  | null => exact ⟨'n', _, rfl, by decide⟩
  | bool b =>
    cases b with
    | false => exact ⟨'f', _, rfl, by decide⟩
    | true => exact ⟨'t', _, rfl, by decide⟩
  | num n =>
    cases n with
    | ofNat m =>
      obtain ⟨c, cs, hcs⟩ := List.exists_cons_of_ne_nil (natChars_ne_nil m)
      have hdig : c.isDigit = true := natChars_digits m c (by rw [hcs]; simp)
      exact ⟨c, cs, hcs, isDigit_ne hdig (by decide)⟩
    | negSucc m => exact ⟨'-', _, rfl, by decide⟩
  | str s => exact ⟨'"', _, rfl, by decide⟩
  | arr es => exact ⟨'[', _, rfl, by decide⟩
  | obj fs => exact ⟨'\x7b', _, rfl, by decide⟩

lemma jsonChars_ne_nil (j : Json) : jsonChars j ≠ [] := by
  obtain ⟨c, cs, hc, _⟩ := jsonChars_head_ne j
  simp [hc]

lemma jsonChars_length_pos (j : Json) : 1 ≤ (jsonChars j).length := by
  have := jsonChars_ne_nil j
  cases h : jsonChars j with
  | nil => exact absurd h this
  | cons c cs => simp

lemma arrChars_cons_decomp (e : Json) (es : List Json) :
    ∃ t, arrChars (e :: es) = jsonChars e ++ t := by
  cases es with
  | nil => exact ⟨[], by simp [arrChars]⟩
  | cons e2 es => exact ⟨',' :: arrChars (e2 :: es), rfl⟩

lemma arrChars_cons_pos (e : Json) (es : List Json) :
    1 ≤ (arrChars (e :: es)).length := by
  obtain ⟨t, ht⟩ := arrChars_cons_decomp e es
  rw [ht]
  have := jsonChars_length_pos e
  simp
  omega

lemma objChars_cons_pos (f : String × Json) (fs : List (String × Json)) :
    1 ≤ (objChars (f :: fs)).length := by
  cases fs with
  | nil =>
    show 1 ≤ (strChars f.1 ++ ':' :: jsonChars f.2).length
    simp
    omega
  | cons f2 fs =>
    show 1 ≤ (strChars f.1 ++ ':' :: jsonChars f.2 ++ ',' :: objChars (f2 :: fs)).length
    simp
    omega

lemma noDigitHead_cons {c : Char} {rest : List Char} (h : c.isDigit = false) :
    noDigitHead (c :: rest) := h

/-- Parsing a serialized value (or a serialized non-empty element / member
list) consumes exactly the serialized characters and returns the original
structure, for any suffix whose head cannot extend a number literal and
any sufficient fuel. -/
theorem parse_components : ∀ fuel : Nat,
    (∀ j rest, (jsonChars j).length < fuel → noDigitHead rest →
      parseVal fuel (jsonChars j ++ rest) = some (j, rest)) ∧
    (∀ e es rest, (arrChars (e :: es)).length + 2 ≤ fuel →
      parseArrItems fuel (arrChars (e :: es) ++ ']' :: rest) = some (e :: es, rest)) ∧
    (∀ f fs rest, (objChars (f :: fs)).length + 2 ≤ fuel →
      parseObjItems fuel (objChars (f :: fs) ++ '\x7d' :: rest) = some (f :: fs, rest)) := by
  intro fuel
  induction fuel with
  | zero =>
    exact ⟨fun j rest h _ => absurd h (Nat.not_lt_zero _),
      fun e es rest h => absurd h (by omega),
      fun f fs rest h => absurd h (by omega)⟩
  | succ F ih =>
    obtain ⟨ihV, ihA, ihO⟩ := ih
    refine ⟨?_, ?_, ?_⟩
    · intro j rest hlen hr
      cases j with
      | null => simp [jsonChars, nullChars, parseVal]
      | bool b => cases b <;> simp [jsonChars, trueChars, falseChars, parseVal]
      | num n =>
        cases n with
        | ofNat m =>
          obtain ⟨c, cs, hcs⟩ := List.exists_cons_of_ne_nil (natChars_ne_nil m)
          have hdig : c.isDigit = true := natChars_digits m c (by rw [hcs]; simp)
          have hn1 : c ≠ 'n' := isDigit_ne hdig (by decide)
          have hn2 : c ≠ 't' := isDigit_ne hdig (by decide)
          have hn3 : c ≠ 'f' := isDigit_ne hdig (by decide)
          have hn4 : c ≠ '"' := isDigit_ne hdig (by decide)
          have hn5 : c ≠ '[' := isDigit_ne hdig (by decide)
          have hn6 : c ≠ '\x7b' := isDigit_ne hdig (by decide)
          have hj : jsonChars (.num (Int.ofNat m)) = natChars m := rfl
          rw [hj, hcs]
          simp only [List.cons_append, parseVal, if_neg hn1, if_neg hn2,
            if_neg hn3, if_neg hn4, if_neg hn5, if_neg hn6]
          have hback : c :: (cs ++ rest) = natChars m ++ rest := by rw [hcs]; simp
          rw [hback, parseNum_natChars m rest hr]
          rfl
        | negSucc m =>
          have hj : jsonChars (.num (Int.negSucc m)) = '-' :: natChars (m + 1) := rfl
          rw [hj]
          simp only [List.cons_append, parseVal]
          rw [if_neg (by decide : ¬('-' = 'n')), if_neg (by decide : ¬('-' = 't')),
            if_neg (by decide : ¬('-' = 'f')), if_neg (by decide : ¬('-' = '"')),
            if_neg (by decide : ¬('-' = '[')), if_neg (by decide : ¬('-' = '\x7b'))]
          have hback : '-' :: (natChars (m + 1) ++ rest)
              = ('-' :: natChars (m + 1)) ++ rest := by simp
          rw [hback, parseNum_negChars m rest hr]
          simp [Int.negSucc_eq]
      | str s =>
        simp only [jsonChars, strChars, List.cons_append, List.append_assoc, List.nil_append]
        simp only [parseVal]
        norm_num
        rw [scanStr_esc s.data [] rest]
        simp
      | arr es =>
        cases es with
        | nil => simp [jsonChars, arrChars, parseVal]
        | cons e es =>
          obtain ⟨t, ht⟩ := arrChars_cons_decomp e es
          obtain ⟨c, cs0, hc, hcne⟩ := jsonChars_head_ne e
          have hkey : jsonChars (.arr (e :: es)) ++ rest
              = '[' :: (arrChars (e :: es) ++ ']' :: rest) := by
            simp [jsonChars]
          have hhead : arrChars (e :: es) ++ ']' :: rest = c :: (cs0 ++ (t ++ ']' :: rest)) := by
            rw [ht, hc]
            simp
          rw [hkey, hhead]
          simp only [parseVal, reduceIte]
          rw [if_neg hcne]
          rw [← hhead]
          have hbound : (arrChars (e :: es)).length + 2 ≤ F := by
            have hl : (jsonChars (Json.arr (e :: es))).length
                = (arrChars (e :: es)).length + 2 := by
              simp [jsonChars]
            omega
          rw [ihA e es rest hbound]
          rw [if_neg (show ('[' : Char) ≠ 'n' by decide), if_neg (show ('[' : Char) ≠ 't' by decide),
            if_neg (show ('[' : Char) ≠ 'f' by decide), if_neg (show ('[' : Char) ≠ '"' by decide)]
      | obj fs =>
        cases fs with
        | nil => simp [jsonChars, objChars, parseVal]
        | cons f fs =>
          have hq : ∃ t, objChars (f :: fs) = '"' :: t := by
            cases fs with
            | nil => exact ⟨escBody f.1.data ++ ['"'] ++ ':' :: jsonChars f.2, by
                show strChars f.1 ++ ':' :: jsonChars f.2 = _
                simp [strChars]⟩
            | cons f2 fs' => exact ⟨escBody f.1.data ++ ['"'] ++ ':' :: jsonChars f.2
                ++ ',' :: objChars (f2 :: fs'), by
                show strChars f.1 ++ ':' :: jsonChars f.2 ++ ',' :: objChars (f2 :: fs') = _
                simp [strChars]⟩
          obtain ⟨t, ht⟩ := hq
          have hkey : jsonChars (.obj (f :: fs)) ++ rest
              = '\x7b' :: (objChars (f :: fs) ++ '\x7d' :: rest) := by
            simp [jsonChars]
          have hhead : objChars (f :: fs) ++ '\x7d' :: rest = '"' :: (t ++ '\x7d' :: rest) := by
            rw [ht]
            simp
          rw [hkey, hhead]
          simp only [parseVal, reduceIte]
          rw [← hhead]
          have hbound : (objChars (f :: fs)).length + 2 ≤ F := by
            have hl : (jsonChars (Json.obj (f :: fs))).length
                = (objChars (f :: fs)).length + 2 := by
              simp [jsonChars]
            omega
          rw [ihO f fs rest hbound]
          rw [if_neg (show ('\x7b' : Char) ≠ 'n' by decide), if_neg (show ('\x7b' : Char) ≠ 't' by decide),
            if_neg (show ('\x7b' : Char) ≠ 'f' by decide), if_neg (show ('\x7b' : Char) ≠ '"' by decide),
            if_neg (show ('\x7b' : Char) ≠ '[' by decide),
            if_neg (show ('"' : Char) ≠ '\x7d' by decide)]
    · intro e es rest hb
      have hPos := jsonChars_length_pos e
      cases es with
      | nil =>
        have harr : arrChars [e] = jsonChars e := rfl
        rw [harr] at hb ⊢
        simp only [parseArrItems]
        rw [ihV e (']' :: rest) (by omega) (noDigitHead_cons (by decide))]
        rfl
      | cons e2 es =>
        have hA2 := arrChars_cons_pos e2 es
        have harr : arrChars (e :: e2 :: es) = jsonChars e ++ ',' :: arrChars (e2 :: es) := rfl
        have hlen : (arrChars (e :: e2 :: es)).length
            = (jsonChars e).length + 1 + (arrChars (e2 :: es)).length := by
          rw [harr]
          simp
          omega
        have hkey : arrChars (e :: e2 :: es) ++ ']' :: rest
            = jsonChars e ++ (',' :: (arrChars (e2 :: es) ++ ']' :: rest)) := by
          rw [harr]
          simp
        rw [hkey]
        simp only [parseArrItems]
        rw [ihV e _ (by omega) (noDigitHead_cons (by decide))]
        have hrec := ihA e2 es rest (by omega)
        simp [hrec]
    · intro f fs rest hb
      obtain ⟨k, v⟩ := f
      have hsk := strChars_length k
      have hv := jsonChars_length_pos v
      cases fs with
      | nil =>
        have hlen : (objChars [(k, v)]).length
            = (strChars k).length + 1 + (jsonChars v).length := by
          show (strChars k ++ ':' :: jsonChars v).length = _
          simp
          omega
        have hkey : objChars [(k, v)] ++ '\x7d' :: rest
            = '"' :: (escBody k.data ++ '"' :: (':' :: (jsonChars v ++ '\x7d' :: rest))) := by
          show (strChars k ++ ':' :: jsonChars v) ++ '\x7d' :: rest = _
          simp [strChars]
        rw [hkey]
        simp only [parseObjItems]
        rw [scanStr_esc k.data [] (':' :: (jsonChars v ++ '\x7d' :: rest))]
        simp only [List.reverse_nil, List.nil_append]
        rw [ihV v ('\x7d' :: rest) (by omega) (noDigitHead_cons (by decide))]
        simp
      | cons f2 fs =>
        have hO2 := objChars_cons_pos f2 fs
        have hsk2 := strChars_length f2.1
        have hobj : objChars ((k, v) :: f2 :: fs)
            = strChars k ++ ':' :: jsonChars v ++ ',' :: objChars (f2 :: fs) := rfl
        have hlen : (objChars ((k, v) :: f2 :: fs)).length
            = (strChars k).length + 1 + (jsonChars v).length + 1
              + (objChars (f2 :: fs)).length := by
          rw [hobj]
          simp
          omega
        have hkey : objChars ((k, v) :: f2 :: fs) ++ '\x7d' :: rest
            = '"' :: (escBody k.data ++ '"' :: (':' :: (jsonChars v
                ++ ',' :: (objChars (f2 :: fs) ++ '\x7d' :: rest)))) := by
          rw [hobj]
          simp [strChars]
        rw [hkey]
        simp only [parseObjItems]
        rw [scanStr_esc k.data [] (':' :: (jsonChars v ++ ',' :: (objChars (f2 :: fs) ++ '\x7d' :: rest)))]
        simp only [List.reverse_nil, List.nil_append]
        rw [ihV v _ (by omega) (noDigitHead_cons (by decide))]
        have hrec := ihO f2 fs rest (by omega)
        simp [hrec]

/-- Round-trip fidelity of the modelled platform serializer: parsing a
serialized JSON value returns the value itself. -/
theorem parseJson_stringify (j : Json) : parseJson (stringify j) = some j := by
  have h := (parse_components ((jsonChars j).length + 1)).1 j [] (by omega) trivial
  rw [List.append_nil] at h
  have hdata : (stringify j).data = jsonChars j := rfl
  have hlen : (stringify j).length = (jsonChars j).length := by
    simp [stringify, String.length]
  rw [parseJson, hdata, hlen, h]

/-- A serialized JSON value is never the empty string (so the raw-string
truthiness check in `cache.get` always passes for stored values). -/
theorem stringify_ne_empty (j : Json) : stringify j ≠ "" := by
  obtain ⟨c, cs, hc, _⟩ := jsonChars_head_ne j
  simp [stringify, hc]
  intro hfalse
  have : (String.mk (c :: cs)).data = ("" : String).data := by rw [hfalse]
  simp at this

/-! ## Helper lemmas about the circuit breaker and `executeWithFallback` -/

lemma tripped_preserves_fields (s : RedisState) (now : Nat) :
    (isCircuitBreakerTripped s now).2.isConnected = s.isConnected ∧
    (isCircuitBreakerTripped s now).2.hasClient = s.hasClient ∧
    (isCircuitBreakerTripped s now).2.circuitBreakerThreshold = s.circuitBreakerThreshold := by
  unfold isCircuitBreakerTripped
  split_ifs <;> simp

lemma tripped_of_open_within (s : RedisState) (now : Nat)
    (h1 : s.isCircuitBreakerOpen = true)
    (h2 : now - s.circuitBreakerLastFailure.getD 0 ≤ s.circuitBreakerTimeout) :
    isCircuitBreakerTripped s now = (true, s) := by
  unfold isCircuitBreakerTripped
  rw [h1]
  simp
  omega

lemma tripped_of_closed (s : RedisState) (now : Nat)
    (h1 : s.isCircuitBreakerOpen = false) :
    isCircuitBreakerTripped s now = (false, s) := by
  unfold isCircuitBreakerTripped
  rw [h1]
  simp

lemma tripped_of_open_elapsed (s : RedisState) (now : Nat)
    (h1 : s.isCircuitBreakerOpen = true)
    (h2 : s.circuitBreakerTimeout < now - s.circuitBreakerLastFailure.getD 0) :
    isCircuitBreakerTripped s now
      = (false, { s with isCircuitBreakerOpen := false, circuitBreakerFailures := 0 }) := by
  unfold isCircuitBreakerTripped
  rw [h1]
  simp
  omega

lemma executeWithFallback_fb {α : Type} (s : RedisState) (now : Nat)
    (op : Except Unit α) (fb : α)
    (h : (s.isCircuitBreakerOpen = true ∧
            now - s.circuitBreakerLastFailure.getD 0 ≤ s.circuitBreakerTimeout) ∨
          s.isConnected = false ∨ ∀ v, op ≠ .ok v) :
    (executeWithFallback s now op fb).result = fb := by
  simp only [executeWithFallback]
  rcases h with ⟨h1, h2⟩ | h | h
  · rw [tripped_of_open_within s now h1 h2]
  · obtain ⟨hc, _, _⟩ := tripped_preserves_fields s now
    rcases htr : isCircuitBreakerTripped s now with ⟨b, s2⟩
    rw [htr] at hc
    cases b
    · simp at hc
      simp [hc, h]
    · simp
  · rcases htr : isCircuitBreakerTripped s now with ⟨b, s2⟩
    cases b
    · simp only []
      split_ifs
      · rfl
      · cases op with
        | ok v => exact absurd rfl (h v)
        | error e => rfl
    · simp

/-- C1: for every cache operation (`get`, `set`, `del`, `clearPattern`),
if the remote store is unreachable — the client is not connected, the
circuit breaker is open (within its cooldown window), or the underlying
store call throws — the operation returns its documented fallback result
(`none` for get, `false` for set and del, `0` for clearPattern).  No
exception can propagate: the operations' result type has no error case,
every failure path yields the fallback. -/
theorem claim_C1_fallback_safety (s : RedisState) (st : Store) (now : Nat)
    (k p : String) (v : Json) (ttl : Nat) (netFail : Bool)
    (h : (s.isCircuitBreakerOpen = true ∧
            now - s.circuitBreakerLastFailure.getD 0 ≤ s.circuitBreakerTimeout) ∨
          s.isConnected = false ∨ netFail = true) :
    (cacheGet s st netFail now k).result = none ∧
    (cacheSet s st netFail now k v ttl).result.1 = false ∧
    (cacheDel s st netFail now k).result.1 = false ∧
    (cacheClearPattern s st netFail now p).result.1 = 0 := by
  have hlift : ∀ (α : Type) (good : Except Unit α),
      (s.isCircuitBreakerOpen = true ∧
        now - s.circuitBreakerLastFailure.getD 0 ≤ s.circuitBreakerTimeout) ∨
      s.isConnected = false ∨
      ∀ w, (if netFail then (.error () : Except Unit α) else good) ≠ .ok w := by
    intro α good
    rcases h with h | h | h
    · exact Or.inl h
    · exact Or.inr (Or.inl h)
    · refine Or.inr (Or.inr fun w => ?_)
      rw [h]
      simp
  refine ⟨?_, ?_, ?_, ?_⟩
  · unfold cacheGet
    rw [executeWithFallback_fb _ _ _ _ (hlift _ _)]
  · unfold cacheSet
    rw [executeWithFallback_fb _ _ _ _ (hlift _ _)]
  · unfold cacheDel
    rw [executeWithFallback_fb _ _ _ _ (hlift _ _)]
  · unfold cacheClearPattern
    rw [executeWithFallback_fb _ _ _ _ (hlift _ _)]

/-- Witness for C1 at a concrete disconnected client state. -/
theorem claim_C1_fallback_safety_witness :
    ((initialRedisState.isCircuitBreakerOpen = true ∧
        5 - initialRedisState.circuitBreakerLastFailure.getD 0
          ≤ initialRedisState.circuitBreakerTimeout) ∨
      initialRedisState.isConnected = false ∨ false = true) ∧
    ((cacheGet initialRedisState [] false 5 "user:1").result = none ∧
     (cacheSet initialRedisState [] false 5 "user:1" (Json.num 1) 300).result.1 = false ∧
     (cacheDel initialRedisState [] false 5 "user:1").result.1 = false ∧
     (cacheClearPattern initialRedisState [] false 5 "blogs:*").result.1 = 0) :=
  ⟨Or.inr (Or.inl rfl),
   claim_C1_fallback_safety initialRedisState [] 5 "user:1" "blogs:*" (Json.num 1) 300 false
     (Or.inr (Or.inl rfl))⟩

/-! ## Circuit breaker trip, half-open probe and reset (C3, C4) -/

lemma recordFailure_fields (s : RedisState) (now : Nat) :
    (recordFailure s now).circuitBreakerFailures = s.circuitBreakerFailures + 1 ∧
    (recordFailure s now).circuitBreakerThreshold = s.circuitBreakerThreshold ∧
    (recordFailure s now).circuitBreakerLastFailure = some now ∧
    (recordFailure s now).isConnected = s.isConnected ∧
    (recordFailure s now).hasClient = s.hasClient := by
  simp [recordFailure]

lemma recordFailureN_fields (now : Nat) : ∀ n (s : RedisState),
    (recordFailureN s now n).circuitBreakerFailures = s.circuitBreakerFailures + n ∧
    (recordFailureN s now n).circuitBreakerThreshold = s.circuitBreakerThreshold := by
  intro n
  induction n with
  | zero => intro s; simp [recordFailureN]
  | succ n ih =>
    intro s
    have h := ih (recordFailure s now)
    simp only [recordFailureN]
    constructor
    · rw [h.1, (recordFailure_fields s now).1]
      omega
    · rw [h.2, (recordFailure_fields s now).2.1]

lemma recordFailureN_open (now : Nat) : ∀ n (s : RedisState),
    s.circuitBreakerThreshold ≤ s.circuitBreakerFailures + n → 1 ≤ n →
    (recordFailureN s now n).isCircuitBreakerOpen = true := by
  intro n
  induction n with
  | zero => intro s _ h; omega
  | succ n ih =>
    intro s hth _
    cases n with
    | zero =>
      show (recordFailure s now).isCircuitBreakerOpen = true
      simp only [recordFailure]
      rw [if_pos (by omega)]
    | succ m =>
      show (recordFailureN (recordFailure s now) now (m + 1)).isCircuitBreakerOpen = true
      refine ih (recordFailure s now) ?_ (by omega)
      rw [(recordFailure_fields s now).1, (recordFailure_fields s now).2.1]
      omega

/-- C3 is false on the code: the failed half-open probe leaves the
breaker closed (`isOpen = false`, failure count 1), it does not
reopen. -/
theorem claim_C3_counterexample :
    (executeWithFallback c3OpenState 40000 (Except.error () : Except Unit Bool) false).opInvoked
        = true ∧
    (executeWithFallback c3OpenState 40000
        (Except.error () : Except Unit Bool) false).state.isCircuitBreakerOpen = false ∧
    (executeWithFallback c3OpenState 40000
        (Except.error () : Except Unit Bool) false).state.circuitBreakerFailures = 1 := by
  decide

/-- C3 (amended): in the half-open situation — breaker open and cooldown
elapsed — the next attempt is allowed through; the tripped-check itself
already closes the breaker and zeroes the failure count, so if that
single attempt fails the breaker stays closed with failure count 1 and a
fresh failure timestamp (it reopens only after threshold-many further
consecutive failures), and if it succeeds the breaker is closed with
failure count 0. -/
theorem claim_C3_half_open (α : Type) (s : RedisState) (now : Nat) (fb v : α)
    (ho : s.isCircuitBreakerOpen = true)
    (he : s.circuitBreakerTimeout < now - s.circuitBreakerLastFailure.getD 0)
    (hc : s.isConnected = true) (hh : s.hasClient = true)
    (hth : 2 ≤ s.circuitBreakerThreshold) :
    (executeWithFallback s now (Except.error () : Except Unit α) fb).opInvoked = true ∧
    (executeWithFallback s now
        (Except.error () : Except Unit α) fb).state.isCircuitBreakerOpen = false ∧
    (executeWithFallback s now
        (Except.error () : Except Unit α) fb).state.circuitBreakerFailures = 1 ∧
    (executeWithFallback s now
        (Except.error () : Except Unit α) fb).state.circuitBreakerLastFailure = some now ∧
    (executeWithFallback s now (Except.ok v) fb).state.isCircuitBreakerOpen = false ∧
    (executeWithFallback s now (Except.ok v) fb).state.circuitBreakerFailures = 0 := by
  have htr := tripped_of_open_elapsed s now ho he
  simp only [executeWithFallback, htr, hc, hh]
  simp [recordFailure, recordSuccess]
  omega

/-- Witness for the amended C3 at the concrete open state. -/
theorem claim_C3_half_open_witness :
    (c3OpenState.isCircuitBreakerOpen = true ∧
      c3OpenState.circuitBreakerTimeout
        < 40000 - c3OpenState.circuitBreakerLastFailure.getD 0 ∧
      c3OpenState.isConnected = true ∧ c3OpenState.hasClient = true ∧
      2 ≤ c3OpenState.circuitBreakerThreshold) ∧
    ((executeWithFallback c3OpenState 40000
        (Except.error () : Except Unit Bool) false).opInvoked = true ∧
     (executeWithFallback c3OpenState 40000
        (Except.error () : Except Unit Bool) false).state.isCircuitBreakerOpen = false ∧
     (executeWithFallback c3OpenState 40000
        (Except.error () : Except Unit Bool) false).state.circuitBreakerFailures = 1 ∧
     (executeWithFallback c3OpenState 40000
        (Except.error () : Except Unit Bool) false).state.circuitBreakerLastFailure = some 40000 ∧
     (executeWithFallback c3OpenState 40000 (Except.ok true) false).state.isCircuitBreakerOpen
        = false ∧
     (executeWithFallback c3OpenState 40000
        (Except.ok true) false).state.circuitBreakerFailures = 0) :=
  ⟨⟨rfl, by decide, rfl, rfl, by decide⟩,
   claim_C3_half_open Bool c3OpenState 40000 false true rfl (by decide) rfl rfl (by decide)⟩

/-- C4: after threshold-many consecutive recorded failures (from a clean
failure count) the breaker is open; while it is open and the cooldown
has not elapsed, every operation attempt returns its fallback without
invoking the store operation; once the cooldown has elapsed, a single
successful operation leaves the breaker closed with failure count 0. -/
theorem claim_C4_breaker_trip_and_reset (α : Type)
    (s0 s1 s2 : RedisState) (now1 now2 now3 : Nat)
    (op : Except Unit α) (fb v : α)
    (h0f : s0.circuitBreakerFailures = 0) (h0N : 1 ≤ s0.circuitBreakerThreshold)
    (h1o : s1.isCircuitBreakerOpen = true)
    (h1w : now2 - s1.circuitBreakerLastFailure.getD 0 ≤ s1.circuitBreakerTimeout)
    (h2o : s2.isCircuitBreakerOpen = true)
    (h2e : s2.circuitBreakerTimeout < now3 - s2.circuitBreakerLastFailure.getD 0)
    (h2c : s2.isConnected = true) (h2h : s2.hasClient = true) :
    ((recordFailureN s0 now1 s0.circuitBreakerThreshold).isCircuitBreakerOpen = true ∧
     (recordFailureN s0 now1 s0.circuitBreakerThreshold).circuitBreakerFailures
        = s0.circuitBreakerThreshold) ∧
    ((executeWithFallback s1 now2 op fb).result = fb ∧
     (executeWithFallback s1 now2 op fb).opInvoked = false) ∧
    ((executeWithFallback s2 now3 (Except.ok v) fb).state.isCircuitBreakerOpen = false ∧
     (executeWithFallback s2 now3 (Except.ok v) fb).state.circuitBreakerFailures = 0 ∧
     (executeWithFallback s2 now3 (Except.ok v) fb).result = v) := by
  refine ⟨⟨?_, ?_⟩, ?_, ?_⟩
  · exact recordFailureN_open now1 s0.circuitBreakerThreshold s0 (by omega) h0N
  · rw [(recordFailureN_fields now1 s0.circuitBreakerThreshold s0).1, h0f]
    omega
  · have htr := tripped_of_open_within s1 now2 h1o h1w
    simp [executeWithFallback, htr]
  · have htr := tripped_of_open_elapsed s2 now3 h2o h2e
    simp only [executeWithFallback, htr, h2c, h2h]
    simp [recordSuccess]

/-- Witness for C4 at concrete states: a clean client accumulating five
failures, the open state probed within the cooldown, and the open state
probed after the cooldown with a successful operation. -/
theorem claim_C4_breaker_trip_and_reset_witness :
    (initialRedisState.circuitBreakerFailures = 0 ∧
      1 ≤ initialRedisState.circuitBreakerThreshold ∧
      c3OpenState.isCircuitBreakerOpen = true ∧
      20000 - c3OpenState.circuitBreakerLastFailure.getD 0
        ≤ c3OpenState.circuitBreakerTimeout ∧
      c3OpenState.isCircuitBreakerOpen = true ∧
      c3OpenState.circuitBreakerTimeout < 40000 - c3OpenState.circuitBreakerLastFailure.getD 0 ∧
      c3OpenState.isConnected = true ∧ c3OpenState.hasClient = true) ∧
    (((recordFailureN initialRedisState 100
          initialRedisState.circuitBreakerThreshold).isCircuitBreakerOpen = true ∧
      (recordFailureN initialRedisState 100
          initialRedisState.circuitBreakerThreshold).circuitBreakerFailures
        = initialRedisState.circuitBreakerThreshold) ∧
     ((executeWithFallback c3OpenState 20000 (Except.ok (42 : Nat)) 0).result = 0 ∧
      (executeWithFallback c3OpenState 20000 (Except.ok (42 : Nat)) 0).opInvoked = false) ∧
     ((executeWithFallback c3OpenState 40000
          (Except.ok (42 : Nat)) 0).state.isCircuitBreakerOpen = false ∧
      (executeWithFallback c3OpenState 40000
          (Except.ok (42 : Nat)) 0).state.circuitBreakerFailures = 0 ∧
      (executeWithFallback c3OpenState 40000 (Except.ok (42 : Nat)) 0).result = 42)) :=
  ⟨⟨rfl, by decide, rfl, by decide, rfl, by decide, rfl, rfl⟩,
   claim_C4_breaker_trip_and_reset Nat initialRedisState c3OpenState c3OpenState
     100 20000 40000 (Except.ok 42) 0 42 rfl (by decide) rfl (by decide) rfl (by decide) rfl rfl⟩

/-! ## Set/get round-trip through the store (C8) -/

lemma recordSuccess_fields (s : RedisState) :
    (recordSuccess s).isConnected = s.isConnected ∧
    (recordSuccess s).hasClient = s.hasClient ∧
    (s.isCircuitBreakerOpen = false → (recordSuccess s).isCircuitBreakerOpen = false) := by
  simp only [recordSuccess]
  split_ifs <;> simp

/-- Evaluation of `cache.get` when the client is connected and the
breaker is closed: the raw string is fetched, a missing or empty string
is a miss, and the parse outcome decides between a value and a caught
parse exception. -/
lemma cacheGet_connected (s : RedisState) (st : Store) (now : Nat) (k : String)
    (hc : s.isConnected = true) (hh : s.hasClient = true)
    (ho : s.isCircuitBreakerOpen = false) :
    cacheGet s st false now k =
      match storeLookup st k with
      | none => ⟨none, recordSuccess s, true⟩
      | some raw =>
        if raw = "" then ⟨none, recordSuccess s, true⟩
        else
          match parseJson raw with
          | some j => ⟨some j, recordSuccess s, true⟩
          | none => ⟨none, recordFailure s now, true⟩ := by
  unfold cacheGet executeWithFallback
  rw [tripped_of_closed s now ho]
  cases hlk : storeLookup st k with
  | none => simp [hlk, hc, hh]
  | some raw =>
    by_cases hraw : raw = ""
    · simp [hlk, hraw, hc, hh]
    · cases hp : parseJson raw with
      | some j => simp [hlk, hraw, hp, hc, hh]
      | none => simp [hlk, hraw, hp, hc, hh]

/-- Evaluation of `cache.set` when the client is connected and the
breaker is closed: the serialized value is stored and `true` is
returned. -/
lemma cacheSet_connected (s : RedisState) (st : Store) (now : Nat) (k : String)
    (v : Json) (ttl : Nat)
    (hc : s.isConnected = true) (hh : s.hasClient = true)
    (ho : s.isCircuitBreakerOpen = false) :
    cacheSet s st false now k v ttl
      = ⟨(true, storeInsert st k (stringify v)), recordSuccess s, true⟩ := by
  unfold cacheSet executeWithFallback
  rw [tripped_of_closed s now ho]
  simp [hc, hh]

/-- C8: a successful `set(key, v, ttl)` followed by `get(key)` before
expiry (the store model holds unexpired entries) returns exactly `v`:
the stringify/parse round-trip is the identity on the modelled
JSON-compatible payloads, and the stored raw string, being non-empty,
passes the truthiness guard in `get`. -/
theorem claim_C8_roundtrip_fidelity (s : RedisState) (st : Store) (now : Nat)
    (k : String) (v : Json) (ttl : Nat)
    (hc : s.isConnected = true) (hh : s.hasClient = true)
    (ho : s.isCircuitBreakerOpen = false) :
    (cacheSet s st false now k v ttl).result.1 = true ∧
    (cacheGet (cacheSet s st false now k v ttl).state
        (cacheSet s st false now k v ttl).result.2 false now k).result = some v := by
  rw [cacheSet_connected s st now k v ttl hc hh ho]
  obtain ⟨hc', hh', ho'⟩ := recordSuccess_fields s
  refine ⟨rfl, ?_⟩
  rw [cacheGet_connected (recordSuccess s) (storeInsert st k (stringify v)) now k
    (by rw [hc', hc]) (by rw [hh', hh]) (ho' ho)]
  have hlk : storeLookup (storeInsert st k (stringify v)) k = some (stringify v) := by
    simp [storeLookup, storeInsert]
  rw [hlk]
  simp only [if_neg (stringify_ne_empty v), parseJson_stringify v]

/-- Witness for C8: a nested payload (an object holding an array of
objects) set and read back at a connected client. -/
theorem claim_C8_roundtrip_fidelity_witness :
    (connectedState.isConnected = true ∧ connectedState.hasClient = true ∧
      connectedState.isCircuitBreakerOpen = false) ∧
    ((cacheSet connectedState [] false 7 "blogs:list" nestedPayload 300).result.1 = true ∧
     (cacheGet (cacheSet connectedState [] false 7 "blogs:list" nestedPayload 300).state
        (cacheSet connectedState [] false 7 "blogs:list" nestedPayload 300).result.2
        false 7 "blogs:list").result = some nestedPayload) :=
  ⟨⟨rfl, rfl, rfl⟩,
   claim_C8_roundtrip_fidelity connectedState [] 7 "blogs:list" nestedPayload 300 rfl rfl rfl⟩

/-! ## Read-through middleware behavior (C2, C5, C6, C9) -/

/-- C2 counterexample: the key is present in the store with the raw
payload `"0"`, so the cache lookup returns the present value `0` — yet
the middleware's truthiness test treats it as a miss: the wrapped
handler IS invoked and no HIT metadata is produced, contradicting the
claim that any present value short-circuits to a HIT response. -/
theorem claim_C2_counterexample :
    (cacheGet connectedState [(demoKey, "0")] false 0 demoKey).result = some (Json.num 0) ∧
    (cacheResponseMw defaultConfig demoReq connectedState [(demoKey, "0")] false false 0
        { status := 200, body := Json.str "fresh" }).handlerInvoked = true ∧
    (cacheResponseMw defaultConfig demoReq connectedState [(demoKey, "0")] false false 0
        { status := 200, body := Json.str "fresh" }).headers.lookup "X-Cache" ≠ some "HIT" := by
  refine ⟨rfl, rfl, ?_⟩
  intro hcontra
  have : some "MISS" = some "HIT" := hcontra
  simp at this

/-- C2 (amended): on a GET request with `skipCache` false, if the cache
lookup for the computed key returns a present value that is
JavaScript-truthy, the middleware writes the HIT metadata and returns
the cached payload as the response, and the wrapped handler is never
invoked.  (A present but falsy value — `0`, `false`, `null`, `""` — is
treated as a miss; see C9.) -/
theorem claim_C2_hit_short_circuit (cfg : CacheConfig) (req : Request)
    (s : RedisState) (st : Store) (gn sn : Bool) (now : Nat) (h : HandlerResp)
    (k : String) (j : Json)
    (hm : req.method = "GET") (hsk : cfg.skipCache = false)
    (hkg : cfg.keyGenerator req = .ok k)
    (hget : (cacheGet s st gn now k).result = some j)
    (htj : jsTruthy j = true) :
    (cacheResponseMw cfg req s st gn sn now h).handlerInvoked = false ∧
    (cacheResponseMw cfg req s st gn sn now h).headers
      = [("X-Cache", "HIT"), ("X-Cache-Key", k),
         ("Cache-Control", cacheControlValue cfg.ttl)] ∧
    (cacheResponseMw cfg req s st gn sn now h).respBody = j ∧
    (cacheResponseMw cfg req s st gn sn now h).cacheSetInvoked = false := by
  unfold cacheResponseMw
  rw [if_neg (by simp [hm, hsk]), hkg]
  simp [hget, htj]

/-- Witness for the amended C2: a truthy cached string is served as a
HIT and the handler never runs. -/
theorem claim_C2_hit_short_circuit_witness :
    (demoReq.method = "GET" ∧ defaultConfig.skipCache = false ∧
      defaultConfig.keyGenerator demoReq = .ok demoKey ∧
      (cacheGet connectedState [(demoKey, stringify (Json.str "cached"))] false 0
          demoReq.originalUrl |> OpOutcome.result) = none ∧
      (cacheGet connectedState [(demoKey, stringify (Json.str "cached"))] false 0
          demoKey).result = some (Json.str "cached") ∧
      jsTruthy (Json.str "cached") = true) ∧
    ((cacheResponseMw defaultConfig demoReq connectedState
        [(demoKey, stringify (Json.str "cached"))] false false 0
        { status := 200, body := Json.null }).handlerInvoked = false ∧
     (cacheResponseMw defaultConfig demoReq connectedState
        [(demoKey, stringify (Json.str "cached"))] false false 0
        { status := 200, body := Json.null }).headers
       = [("X-Cache", "HIT"), ("X-Cache-Key", demoKey),
          ("Cache-Control", cacheControlValue defaultConfig.ttl)] ∧
     (cacheResponseMw defaultConfig demoReq connectedState
        [(demoKey, stringify (Json.str "cached"))] false false 0
        { status := 200, body := Json.null }).respBody = Json.str "cached" ∧
     (cacheResponseMw defaultConfig demoReq connectedState
        [(demoKey, stringify (Json.str "cached"))] false false 0
        { status := 200, body := Json.null }).cacheSetInvoked = false) :=
  ⟨⟨rfl, rfl, rfl, rfl, rfl, rfl⟩,
   claim_C2_hit_short_circuit defaultConfig demoReq connectedState
     [(demoKey, stringify (Json.str "cached"))] false false 0
     { status := 200, body := Json.null } demoKey (Json.str "cached")
     rfl rfl rfl rfl rfl⟩

/-- C5 counterexample: a GET request through the middleware whose lookup
misses and whose handler responds with status 404 receives NO cache
headers at all — the `res.json` override only writes `X-Cache`/
`X-Cache-Key` for 2xx responses — contradicting the claim that every
read response carries the cache-status metadata regardless of status
code. -/
theorem claim_C5_counterexample :
    (cacheResponseMw defaultConfig demoReq connectedState [] false false 0
        { status := 404, body := Json.str "not found" }).headers = [] ∧
    (cacheResponseMw defaultConfig demoReq connectedState [] false false 0
        { status := 404, body := Json.str "not found" }).headers.lookup "X-Cache" = none :=
  ⟨rfl, rfl⟩

/-- C5 (amended): on a GET with `skipCache` false, the headers written
by the middleware are exactly: `X-Cache: ERROR` (without the key) when
the key generator throws; the HIT triple on a truthy hit; the MISS
triple when the handler responds 2xx on the miss path; and no cache
headers at all when the handler responds with a non-2xx status on the
miss path. -/
theorem claim_C5_cache_status_headers (cfg : CacheConfig) (req : Request)
    (s : RedisState) (st : Store) (gn sn : Bool) (now : Nat) (h : HandlerResp)
    (hm : req.method = "GET") (hsk : cfg.skipCache = false) :
    (∀ e, cfg.keyGenerator req = .error e →
      (cacheResponseMw cfg req s st gn sn now h).headers = [("X-Cache", "ERROR")]) ∧
    (∀ k j, cfg.keyGenerator req = .ok k →
      (cacheGet s st gn now k).result = some j → jsTruthy j = true →
      (cacheResponseMw cfg req s st gn sn now h).headers
        = [("X-Cache", "HIT"), ("X-Cache-Key", k),
           ("Cache-Control", cacheControlValue cfg.ttl)]) ∧
    (∀ k, cfg.keyGenerator req = .ok k →
      optTruthy (cacheGet s st gn now k).result = false →
      200 ≤ h.status ∧ h.status < 300 →
      (cacheResponseMw cfg req s st gn sn now h).headers
        = [("X-Cache", "MISS"), ("X-Cache-Key", k),
           ("Cache-Control", cacheControlValue cfg.ttl)]) ∧
    (∀ k, cfg.keyGenerator req = .ok k →
      optTruthy (cacheGet s st gn now k).result = false →
      ¬(200 ≤ h.status ∧ h.status < 300) →
      (cacheResponseMw cfg req s st gn sn now h).headers = []) := by
  refine ⟨?_, ?_, ?_, ?_⟩
  · intro e hkg
    unfold cacheResponseMw
    rw [if_neg (by simp [hm, hsk]), hkg]
  · intro k j hkg hget htj
    unfold cacheResponseMw
    rw [if_neg (by simp [hm, hsk]), hkg]
    simp [hget, htj]
  · intro k hkg hfalsy hs
    unfold cacheResponseMw
    rw [if_neg (by simp [hm, hsk]), hkg]
    cases hget : (cacheGet s st gn now k).result with
    | none => simp [hget, missBranch, hs]
    | some j =>
      rw [hget] at hfalsy
      simp only [optTruthy] at hfalsy
      simp [hget, hfalsy, missBranch, hs]
  · intro k hkg hfalsy hs
    unfold cacheResponseMw
    rw [if_neg (by simp [hm, hsk]), hkg]
    cases hget : (cacheGet s st gn now k).result with
    | none => simp [hget, missBranch, hs]
    | some j =>
      rw [hget] at hfalsy
      simp only [optTruthy] at hfalsy
      simp [hget, hfalsy, missBranch, hs]

/-- Witness for the amended C5 on its non-2xx miss branch at concrete
inputs (the other branches' concrete behavior is witnessed by the C2
witness and counterexamples). -/
theorem claim_C5_cache_status_headers_witness :
    (demoReq.method = "GET" ∧ defaultConfig.skipCache = false ∧
      defaultConfig.keyGenerator demoReq = .ok demoKey ∧
      optTruthy (cacheGet connectedState [] false 0 demoKey).result = false ∧
      ¬(200 ≤ 404 ∧ 404 < 300)) ∧
    (cacheResponseMw defaultConfig demoReq connectedState [] false false 0
        { status := 404, body := Json.str "not found" }).headers = [] :=
  ⟨⟨rfl, rfl, rfl, rfl, by omega⟩,
   (claim_C5_cache_status_headers defaultConfig demoReq connectedState [] false false 0
      { status := 404, body := Json.str "not found" } rfl rfl).2.2.2 demoKey rfl rfl
      (by decide)⟩

/-- C6: a handler response with status at least 300 is never written to
the cache: on every path of the middleware (bypass, error, hit, miss)
`cache.set` is not invoked and the store is unchanged. -/
theorem claim_C6_non_success_not_cached (cfg : CacheConfig) (req : Request)
    (s : RedisState) (st : Store) (gn sn : Bool) (now : Nat) (h : HandlerResp)
    (hst : 300 ≤ h.status) :
    (cacheResponseMw cfg req s st gn sn now h).cacheSetInvoked = false ∧
    (cacheResponseMw cfg req s st gn sn now h).finalStore = st := by
  have hns : ¬(200 ≤ h.status ∧ h.status < 300) := by omega
  unfold cacheResponseMw
  split_ifs with h1
  · exact ⟨rfl, rfl⟩
  · cases hkg : cfg.keyGenerator req with
    | error e => exact ⟨rfl, rfl⟩
    | ok k =>
      cases hget : (cacheGet s st gn now k).result with
      | none => simp [hget, missBranch, hns]
      | some j =>
        by_cases htj : jsTruthy j
        · simp [hget, htj]
        · simp [hget, htj, missBranch, hns]

/-- Witness for C6 at a concrete 503 handler response on the miss
path. -/
theorem claim_C6_non_success_not_cached_witness :
    300 ≤ 503 ∧
    ((cacheResponseMw defaultConfig demoReq connectedState [] false false 0
        { status := 503, body := Json.str "unavailable" }).cacheSetInvoked = false ∧
     (cacheResponseMw defaultConfig demoReq connectedState [] false false 0
        { status := 503, body := Json.str "unavailable" }).finalStore = []) :=
  ⟨by omega,
   claim_C6_non_success_not_cached defaultConfig demoReq connectedState [] false false 0
     { status := 503, body := Json.str "unavailable" } (by decide)⟩

/-- C9: a present key whose stored payload is a falsy JSON value (`0`,
`false`, `null`, the empty JSON string) or the raw empty string is
treated by the read-through middleware as a miss: the wrapped handler is
invoked and no HIT metadata is produced. -/
theorem claim_C9_falsy_payload_is_miss (cfg : CacheConfig) (req : Request)
    (s : RedisState) (st : Store) (sn : Bool) (now : Nat) (h : HandlerResp)
    (k : String) (v : Json)
    (hm : req.method = "GET") (hsk : cfg.skipCache = false)
    (hkg : cfg.keyGenerator req = .ok k)
    (hc : s.isConnected = true) (hh : s.hasClient = true)
    (ho : s.isCircuitBreakerOpen = false)
    (hstore : (storeLookup st k = some (stringify v) ∧ jsTruthy v = false) ∨
              storeLookup st k = some "") :
    (cacheResponseMw cfg req s st false sn now h).handlerInvoked = true ∧
    (cacheResponseMw cfg req s st false sn now h).headers.lookup "X-Cache" ≠ some "HIT" := by
  have hcg := cacheGet_connected s st now k hc hh ho
  have hres : (cacheGet s st false now k).result = none ∨
      ((cacheGet s st false now k).result = some v ∧ jsTruthy v = false) := by
    rcases hstore with ⟨hlk, hfalsy⟩ | hlk
    · refine Or.inr ⟨?_, hfalsy⟩
      rw [hcg, hlk]
      simp only [if_neg (stringify_ne_empty v), parseJson_stringify v]
    · refine Or.inl ?_
      rw [hcg, hlk]
      simp
  unfold cacheResponseMw
  rw [if_neg (by simp [hm, hsk]), hkg]
  have hmiss : ∀ s1 : RedisState,
      (missBranch k cfg.ttl s1 st sn now h).handlerInvoked = true ∧
      (missBranch k cfg.ttl s1 st sn now h).headers.lookup "X-Cache" ≠ some "HIT" := by
    intro s1
    unfold missBranch
    split_ifs
    · refine ⟨rfl, ?_⟩
      intro hcontra
      have : some "MISS" = some "HIT" := hcontra
      simp at this
    · exact ⟨rfl, by simp⟩
  rcases hres with hres | ⟨hres, hfalsy⟩
  · simp only [hres]
    exact hmiss _
  · simp only [hres, hfalsy, Bool.false_eq_true, if_false]
    exact hmiss _

/-- Witness for C9 at a stored payload `0` (raw string `"0"`). -/
theorem claim_C9_falsy_payload_is_miss_witness :
    (demoReq.method = "GET" ∧ defaultConfig.skipCache = false ∧
      defaultConfig.keyGenerator demoReq = .ok demoKey ∧
      connectedState.isConnected = true ∧ connectedState.hasClient = true ∧
      connectedState.isCircuitBreakerOpen = false ∧
      storeLookup [(demoKey, "0")] demoKey = some (stringify (Json.num 0)) ∧
      jsTruthy (Json.num 0) = false) ∧
    ((cacheResponseMw defaultConfig demoReq connectedState [(demoKey, "0")] false false 0
        { status := 200, body := Json.str "fresh" }).handlerInvoked = true ∧
     (cacheResponseMw defaultConfig demoReq connectedState [(demoKey, "0")] false false 0
        { status := 200, body := Json.str "fresh" }).headers.lookup "X-Cache"
       ≠ some "HIT") :=
  ⟨⟨rfl, rfl, rfl, rfl, rfl, rfl, rfl, rfl⟩,
   claim_C9_falsy_payload_is_miss defaultConfig demoReq connectedState [(demoKey, "0")]
     false 0 { status := 200, body := Json.str "fresh" } demoKey (Json.num 0)
     rfl rfl rfl rfl rfl rfl (Or.inl ⟨rfl, rfl⟩)⟩

/-! ## Invalidation middleware (C7) -/

/-- C7: when the finalized response has a non-2xx status, the
invalidation middleware performs no pattern invalidation: `clearPattern`
is never scheduled and the store and client state are untouched. -/
theorem claim_C7_failed_mutation_skips_invalidation (pats : InvalidationPatterns)
    (req : Request) (finalStatus : Nat) (s : RedisState) (st : Store)
    (nf : Bool) (now : Nat)
    (h : ¬(200 ≤ finalStatus ∧ finalStatus < 300)) :
    (invalidateCacheMw pats req finalStatus s st nf now).invalidationPerformed = false ∧
    (invalidateCacheMw pats req finalStatus s st nf now).finalStore = st ∧
    (invalidateCacheMw pats req finalStatus s st nf now).finalState = s := by
  unfold invalidateCacheMw
  rw [if_neg h]
  exact ⟨rfl, rfl, rfl⟩

/-- Witness for C7 at a concrete 400 validation failure with a populated
store. -/
theorem claim_C7_failed_mutation_skips_invalidation_witness :
    ¬(200 ≤ 400 ∧ 400 < 300) ∧
    ((invalidateCacheMw (.listPat ["blogs:*", "blog:*"]) demoReq 400 connectedState
        [(demoKey, "0")] false 0).invalidationPerformed = false ∧
     (invalidateCacheMw (.listPat ["blogs:*", "blog:*"]) demoReq 400 connectedState
        [(demoKey, "0")] false 0).finalStore = [(demoKey, "0")] ∧
     (invalidateCacheMw (.listPat ["blogs:*", "blog:*"]) demoReq 400 connectedState
        [(demoKey, "0")] false 0).finalState = connectedState) :=
  ⟨by omega,
   claim_C7_failed_mutation_skips_invalidation (.listPat ["blogs:*", "blog:*"]) demoReq 400
     connectedState [(demoKey, "0")] false 0 (by omega)⟩

/-! ## Pre-configured blog cache middleware (C10) -/

/-- C10: every `blogCache` entry passes a number where `cacheResponse`
expects an options object, so destructuring yields only defaults: all
four configurations are identical, use the default key generator
`api:<method>:<originalUrl>` and the default TTL of 300 seconds, and the
intended per-endpoint TTLs (900, 600, 1800) and key prefixes never take
effect. -/
theorem claim_C10_blog_cache_defaults :
    blogCacheList = blogCacheSingle ∧
    blogCacheList = blogCacheUserBlogs ∧
    blogCacheList = blogCachePopular ∧
    blogCacheList.ttl = 300 ∧ blogCacheSingle.ttl = 300 ∧
    blogCacheUserBlogs.ttl = 300 ∧ blogCachePopular.ttl = 300 ∧
    blogCacheList.skipCache = false ∧
    blogCacheList = resolveOptions (.objArg none none none) ∧
    ∀ req : Request, blogCacheSingle.keyGenerator req
      = .ok ("api:" ++ req.method ++ ":" ++ req.originalUrl) :=
  ⟨rfl, rfl, rfl, rfl, rfl, rfl, rfl, rfl, rfl, fun _ => rfl⟩

end BlogCache
